import Mathlib

/-!
# Alert-to-message pipeline of the Telegram templating bot

A shallow embedding of `main.go`: the chunker `SplitString`, the start-up
checks of `main`, the template resolution and rendering of
`AlertFormatTemplate`, and the delivery loop of `POST_Handling`.

Go strings that hold text (valid UTF-8) are Lean `String`s: a Lean `String` is
a list of Unicode scalar values, which is what `bytes.Runes` yields on valid
UTF-8, and `string(r)` of a scalar value is the one-character string.
Go `int` and `int64` values are `Int`; the only arithmetic is the remainder of
line 91, which Go computes truncated (`Int.tmod`) and which panics on a zero
divisor. Logging is not modelled. The collaborators that live outside the
repository (the template library and the file system, the JSON encoder, the
chat platform client) are parameters.
-/

set_option autoImplicit false

namespace TgrBot

/-! ## Chunker (lines 83-100) -/

/-- The `for i, r := range runes` loop of `SplitString` (lines 89-97), from
index `i` on, with the current `sub` and `subs`; `l` is `len(runes)`.
`none` is the run-time panic of `(i+1)%n` when `n` is zero. -/
def SplitString.loop (n : Int) (l : Nat) :
    List Char → Nat → String → List String → Option (List String)
  | [], _, _, subs => some subs
  | r :: rs, i, sub, subs =>
    let sub := sub ++ String.singleton r
    if n = 0 then none
    else if Int.tmod ((i : Int) + 1) n = 0 then
      SplitString.loop n l rs (i + 1) "" (subs ++ [sub])
    else if i + 1 = l then
      SplitString.loop n l rs (i + 1) sub (subs ++ [sub])
    else
      SplitString.loop n l rs (i + 1) sub subs

/-- `SplitString(s, n)` (lines 83-100). -/
def SplitString (s : String) (n : Int) : Option (List String) :=
  let runes := s.data
  let l := runes.length
  SplitString.loop n l runes 0 "" []


/-! ## Configuration and start-up (lines 22-29 and 102-148) -/

/-- The `Config` struct (lines 22-29). A key that the YAML file leaves out has
the zero value: the empty string, or `0` for `SplitMessageBytes`. -/
structure Config where
  TelegramToken : String
  TemplatePath : String
  TimeZone : String
  TimeOutFormat : String
  SplitChart : String
  SplitMessageBytes : Int
deriving DecidableEq, Repr

/-- The global `tmpH`, a `map[string]*pongo2.Template` over handles `H`:
`none` is a missing key, `some none` a key bound to the nil pointer,
`some (some h)` a key bound to the compiled template `h`. -/
abbrev TemplateMap (H : Type) := String → Option (Option H)

/-- The read `tmpH[k]`: the nil pointer when the key is missing. -/
def TemplateMap.get {H : Type} (tmpH : TemplateMap H) (k : String) : Option H :=
  (tmpH k).join

/-- The assignment `tmpH[k] = v`. -/
def TemplateMap.set {H : Type} (tmpH : TemplateMap H) (k : String) (v : Option H) :
    TemplateMap H :=
  fun j => if j = k then some v else tmpH j

/-- Lines 114-120 of `main`: the `-t` flag replaces the template path of the
configuration file, and a split size of zero becomes 4000. -/
def main.defaults (template_path : String) (cfg : Config) : Config :=
  let cfg := if template_path ≠ "" then { cfg with TemplatePath := template_path } else cfg
  if cfg.SplitMessageBytes = 0 then { cfg with SplitMessageBytes := 4000 } else cfg

/-- The part of `main` before the server starts (lines 114-148), on the parsed
configuration file `cfg`, the value of the `-t` flag, the outcome of
`tgbotapi.NewBotAPI` and the template loader. An error is a `log.Fatal`;
otherwise the result is the global `cfg` and `tmpH` the handlers run with. -/
def main {H : Type} (template_path : String) (cfg : Config)
    (newBotAPI : Except String Unit) (loadTemplate : String → Except String H) :
    Except String (Config × TemplateMap H) :=
  let cfg := main.defaults template_path cfg
  match newBotAPI with
  | .error e => .error e
  | .ok _ =>
    if cfg.TemplatePath ≠ "" then
      match loadTemplate cfg.TemplatePath with
      | .error e => .error e
      | .ok h =>
        if cfg.TimeZone = "" then .error "You must define time_zone of your bot"
        else .ok (cfg, TemplateMap.set (fun _ => none) "default" (some h))
    else .error "You must define template path"

/-! ## Template resolution and rendering (lines 189-223) -/

/-- What `AlertFormatTemplate` calls outside the repository, as it stands at
the time of one request: `loadTemplate` (`pongo2.FromFile`, which returns the
nil template together with every error), the execution of a compiled template
on a payload, and `json.Marshal` of the payload. -/
structure Env (H P : Type) where
  loadTemplate : String → Except String H
  ExecuteWriterUnbuffered : H → P → Except String String
  Marshal : P → Except String String

/-- State after lines 193-212: the map, the template name after the rewrite of
the empty name, and the arguments of the `loadTemplate` calls made. -/
structure Resolution (H : Type) where
  tmpH : TemplateMap H
  template : String
  loaded : List String

/-- Lines 193-212 of `AlertFormatTemplate`: the lookup of the template name and
the (re)load with its fallback. On a load error line 204 or 206 has already
stored the nil template under the name when line 210 copies the entry of
"default" over it. -/
def AlertFormatTemplate.resolve {H : Type} (debug : Bool) (cfg : Config)
    (loadTemplate : String → Except String H) (tmpH : TemplateMap H) (template : String) :
    Resolution H :=
  let template := if template = "" then "default" else template
  let ok := (tmpH template).isSome
  if !ok || debug then
    let path := if template = "default" then cfg.TemplatePath else template
    match loadTemplate path with
    | .ok h => ⟨tmpH.set template (some h), template, [path]⟩
    | .error _ =>
      let tmpH := tmpH.set template none
      ⟨tmpH.set template (tmpH.get "default"), template, [path]⟩
  else ⟨tmpH, template, []⟩

/-- The template pointer `tmpH[template]` that line 214 executes. -/
def Resolution.selected {H : Type} (r : Resolution H) : Option H :=
  r.tmpH.get r.template

/-- How `AlertFormatTemplate` ends: it returns the rendered text (line 222),
the process exits in `log.Fatalf` on an execution error (line 218), or line 214
dereferences a nil template. -/
inductive Rendered where
  | text (msgtext : String)
  | fatal (err : String)
  | nilTemplate
deriving DecidableEq, Repr

/-- `AlertFormatTemplate(alerts, template)` (lines 189-223), with the new state
of the global map. -/
def AlertFormatTemplate {H P : Type} (debug : Bool) (cfg : Config) (env : Env H P)
    (tmpH : TemplateMap H) (alerts : P) (template : String) : TemplateMap H × Rendered :=
  let r := AlertFormatTemplate.resolve debug cfg env.loadTemplate tmpH template
  match r.selected with
  | none => (r.tmpH, .nilTemplate)
  | some t =>
    match env.ExecuteWriterUnbuffered t alerts with
    | .ok out => (r.tmpH, .text out)
    | .error e => (r.tmpH, .fatal e)

/-- One later request as the template store sees it: the name asked for and
the loader as the file system then answers. -/
structure Request (H : Type) where
  template : String
  loadTemplate : String → Except String H

/-- The map after a sequence of resolutions, one per request, in order. -/
def resolveAll {H : Type} (debug : Bool) (cfg : Config) :
    List (Request H) → TemplateMap H → TemplateMap H
  | [], tmpH => tmpH
  | q :: qs, tmpH =>
    resolveAll debug cfg qs (AlertFormatTemplate.resolve debug cfg q.loadTemplate tmpH q.template).tmpH

/-! ## Delivery (lines 225-289) -/

/-- The fields of `tgbotapi.MessageConfig` that the handlers set. -/
structure MessageConfig where
  ChatID : Int
  Text : String
  ParseMode : String
  DisableWebPagePreview : Bool
deriving DecidableEq, Repr

/-- `tgbotapi.NewMessage`: no parse mode, link preview left on. -/
def NewMessage (chatID : Int) (text : String) : MessageConfig :=
  { ChatID := chatID, Text := text, ParseMode := "", DisableWebPagePreview := false }

/-- `tgbotapi.ModeHTML`. -/
def ModeHTML : String := "HTML"

/-- The chat platform client: `bot.Send` on a client state `σ` returns the
pair `(sendmsg, err)` and the next state, so that any pattern of successes and
failures is some `BotAPI`. -/
structure BotAPI (σ M : Type) where
  Send : σ → MessageConfig → (M × Option String) × σ

/-- What a handler does that is visible outside, in the order it happens: a
`bot.Send` call with what it returned, a `c.String` response, a `c.JSON`
response with the `err`, `message` and `srcmsg` fields it carries. -/
inductive Event (M : Type) where
  | send (msg : MessageConfig) (sendmsg : M) (err : Option String)
  | cString (code : Nat) (body : String)
  | cJSON (code : Nat) (err : String) (message : Option M) (srcmsg : Option String)
deriving DecidableEq, Repr

/-- How a handler ends: it returns, the process exits in `log.Fatalf`, or it
panics. -/
inductive Exit where
  | returned
  | fatal (err : String)
  | panicked
deriving DecidableEq, Repr

/-- The message of lines 262-272 for one chunk. -/
def chunkMessage (chatid : Int) (subString : String) : MessageConfig :=
  { NewMessage chatid subString with ParseMode := ModeHTML, DisableWebPagePreview := true }

/-- The message of line 284. -/
def errorNotice (chatid : Int) : MessageConfig :=
  NewMessage chatid "Error sending message, checkout logs"

/-- The `for _, subString := range ...` loop of `POST_Handling` (lines
261-287) over the chunks left, from client state `bot`. -/
def POST_Handling.sendLoop {σ M : Type} (api : BotAPI σ M) (chatid : Int) (msgtext : String) :
    List String → σ → List (Event M) × σ
  | [], bot => ([], bot)
  | subString :: rest, bot =>
    let msg := chunkMessage chatid subString
    match api.Send bot msg with
    | ((sendmsg, none), bot) =>
      let (tr, bot) := POST_Handling.sendLoop api chatid msgtext rest bot
      (Event.send msg sendmsg none :: Event.cString 200 "telegram msg sent." :: tr, bot)
    | ((sendmsg, some err), bot) =>
      match api.Send bot (errorNotice chatid) with
      | ((m2, e2), bot) =>
        let (tr, bot) := POST_Handling.sendLoop api chatid msgtext rest bot
        (Event.send msg sendmsg (some err)
          :: Event.cJSON 503 err (some sendmsg) (some msgtext)
          :: Event.send (errorNotice chatid) m2 e2 :: tr, bot)

/-- What a handler leaves behind. -/
structure Handled (H σ M : Type) where
  tmpH : TemplateMap H
  bot : σ
  trace : List (Event M)
  exit : Exit

/-- `POST_Handling` (lines 225-289) on the outcome `chatidParam` of
`strconv.ParseInt` on the path parameter, the `template` query parameter and
the bound payload `s`. -/
def POST_Handling {H P σ M : Type} (debug : Bool) (cfg : Config) (env : Env H P)
    (api : BotAPI σ M) (tmpH : TemplateMap H) (bot : σ)
    (chatidParam : Except String Int) (template : String) (s : P) : Handled H σ M :=
  match chatidParam with
  | .error err => ⟨tmpH, bot, [Event.cJSON 503 err none none], .returned⟩
  | .ok chatid =>
    if debug && !(env.Marshal s).toBool then ⟨tmpH, bot, [], .returned⟩
    else
      match AlertFormatTemplate debug cfg env tmpH s template with
      | (tmpH, .fatal err) => ⟨tmpH, bot, [], .fatal err⟩
      | (tmpH, .nilTemplate) => ⟨tmpH, bot, [], .panicked⟩
      | (tmpH, .text msgtext) =>
        match SplitString msgtext cfg.SplitMessageBytes with
        | none => ⟨tmpH, bot, [], .panicked⟩
        | some subs =>
          let (tr, bot) := POST_Handling.sendLoop api chatid msgtext subs bot
          ⟨tmpH, bot, tr, .returned⟩

/-- The messages passed to `bot.Send`, in call order. -/
def sends {M : Type} (tr : List (Event M)) : List MessageConfig :=
  tr.filterMap fun e => match e with
    | .send msg _ _ => some msg
    | _ => none

/-- The responses written, in order. -/
def responses {M : Type} (tr : List (Event M)) : List (Event M) :=
  tr.filter fun e => match e with
    | .send _ _ _ => false
    | _ => true

/-- The delivery of one chunk as the delivery contract words it: the chunk was
delivered with acknowledgement `sendmsg`, or its send failed with `err` and the
send of the notice returned `noticeMsg` and `noticeErr`. -/
inductive ChunkOutcome (M : Type) where
  | delivered (sendmsg : M)
  | failed (sendmsg : M) (err : String) (noticeMsg : M) (noticeErr : Option String)
deriving DecidableEq, Repr

/-- Whether the send of the chunk failed. -/
def ChunkOutcome.isFailed {M : Type} : ChunkOutcome M → Bool
  | .delivered _ => false
  | .failed _ _ _ _ => true

/-- The events the delivery contract asks for one chunk, stated from the
contract and compared with the loop of `POST_Handling`: the send of the chunk,
then the 200 response, or the 503 response with the send error and the whole
rendered text followed by one send of the notice, whatever that send returns. -/
def specChunkEvents {M : Type} (chatid : Int) (msgtext : String) (subString : String) :
    ChunkOutcome M → List (Event M)
  | .delivered sendmsg =>
    [Event.send (chunkMessage chatid subString) sendmsg none,
     Event.cString 200 "telegram msg sent."]
  | .failed sendmsg err noticeMsg noticeErr =>
    [Event.send (chunkMessage chatid subString) sendmsg (some err),
     Event.cJSON 503 err (some sendmsg) (some msgtext),
     Event.send (errorNotice chatid) noticeMsg noticeErr]

/-! ## Concrete collaborators for the worked examples -/

/-- A configuration file with every key set and the given split size. -/
def exampleConfig (split : Int) : Config :=
  { TelegramToken := "token", TemplatePath := "default.tmpl", TimeZone := "Europe/Moscow",
    TimeOutFormat := "02/01/2006 15:04:05", SplitChart := "|", SplitMessageBytes := split }

/-- A file system that holds `default.tmpl` only; a handle is a number. -/
def exampleLoad : String → Except String Nat :=
  fun path => if path = "default.tmpl" then .ok 1 else .error "no such file or directory"

/-- A file system on which every load fails. -/
def brokenLoad : String → Except String Nat :=
  fun _ => .error "no such file or directory"

/-- Collaborators whose every template renders to `text`. -/
def exampleEnv (text : String) : Env Nat Unit :=
  { loadTemplate := exampleLoad
    ExecuteWriterUnbuffered := fun _ _ => .ok text
    Marshal := fun _ => .ok "null" }

/-- The map as `main` leaves it with `exampleLoad`. -/
def exampleStore : TemplateMap Nat :=
  TemplateMap.set (fun _ => none) "default" (some 1)

/-- A client that counts its sends and fails those whose number (from 0) is in
`failing`; the acknowledgement is the number of the send. -/
def exampleApi (failing : List Nat) : BotAPI Nat Nat :=
  { Send := fun k _ => ((k, if k ∈ failing then some "Bad Request" else none), k + 1) }

/-- A rendered text of 9000 characters. -/
def longText : String := String.mk (List.replicate 9000 'a')

/-! ## Reference chunking -/

/-- Reference chunking used in the proofs: consecutive pieces of `m` runes, the
last one holding what is left (for `m > 0`). -/
def chunks (m : Nat) : List Char → List (List Char)
  | [] => []
  | x :: rest => (x :: rest).take m :: chunks m (rest.drop (m - 1))
termination_by xs => xs.length
decreasing_by
  simp only [List.length_drop, List.length_cons]
  omega

/-! ## The chunker returns the reference chunking -/

theorem chunks_nil (m : Nat) : chunks m [] = [] := by
  rw [chunks]

theorem chunks_of_ne_nil {m : Nat} (hm : 0 < m) {xs : List Char} (hx : xs ≠ []) :
    chunks m xs = xs.take m :: chunks m (xs.drop m) := by
  cases xs with
  | nil => exact absurd rfl hx
  | cons x rest =>
    obtain ⟨k, rfl⟩ : ∃ k, m = k + 1 := ⟨m - 1, by omega⟩
    rw [chunks]
    simp

theorem chunks_short {m : Nat} (hm : 0 < m) {xs : List Char} (hx : xs ≠ [])
    (hl : xs.length ≤ m) : chunks m xs = [xs] := by
  rw [chunks_of_ne_nil hm hx, List.take_of_length_le hl, List.drop_of_length_le hl, chunks_nil]

theorem chunks_append {m : Nat} (hm : 0 < m) (a rs : List Char) (ha : a.length = m) :
    chunks m (a ++ rs) = a :: chunks m rs := by
  have hne : a ++ rs ≠ [] := by
    intro h
    rw [(List.append_eq_nil.mp h).1] at ha
    simp at ha
    omega
  rw [chunks_of_ne_nil hm hne]
  simp [← ha]

theorem tmod_succ_eq_zero_iff (n : Int) (i : Nat) :
    Int.tmod ((i : Int) + 1) n = 0 ↔ (i + 1) % n.natAbs = 0 := by
  rw [← Int.dvd_iff_tmod_eq_zero, ← Nat.dvd_iff_mod_eq_zero, ← Int.natAbs_dvd_natAbs]
  have : ((i : Int) + 1).natAbs = i + 1 := by
    have : ((i : Int) + 1) = ((i + 1 : Nat) : Int) := by push_cast; rfl
    rw [this, Int.natAbs_ofNat]
  rw [this]

theorem succ_mod_cases (i m : Nat) (hm : 0 < m) :
    (i + 1) % m = if i % m + 1 = m then 0 else i % m + 1 := by
  have hlt : i % m < m := Nat.mod_lt _ hm
  rw [← Nat.mod_add_mod i m 1]
  split
  · next h => rw [h, Nat.mod_self]
  · next h => exact Nat.mod_eq_of_lt (by omega)

theorem loop_eq_chunks (n : Int) (hn : n ≠ 0) (l : Nat) :
    ∀ (rs : List Char) (i : Nat) (sub : String) (subs : List String),
      rs ≠ [] → i + rs.length = l → sub.length = i % n.natAbs →
      SplitString.loop n l rs i sub subs
        = some (subs ++ (chunks n.natAbs (sub.data ++ rs)).map String.mk) := by
  have hm : 0 < n.natAbs := Int.natAbs_pos.mpr hn
  intro rs
  induction rs with
  | nil => intro i sub subs h; exact absurd rfl h
  | cons r rs ih =>
    intro i sub subs _ hl hsub
    have hlt : i % n.natAbs < n.natAbs := Nat.mod_lt _ hm
    have hd : sub.data.length = i % n.natAbs := hsub
    have hsm := succ_mod_cases i n.natAbs hm
    have hcat : sub.data ++ r :: rs = (sub.data ++ [r]) ++ rs := by simp
    simp only [SplitString.loop, if_neg hn, tmod_succ_eq_zero_iff]
    by_cases h0 : (i + 1) % n.natAbs = 0
    · -- the boundary of line 91: the chunk holds exactly `|n|` runes
      have hfull : (sub.data ++ [r]).length = n.natAbs := by
        simp only [List.length_append, List.length_singleton, hd]
        by_contra hne
        rw [if_neg hne] at hsm
        omega
      rw [if_pos h0, hcat, chunks_append hm _ _ hfull]
      cases rs with
      | nil => simp [SplitString.loop, chunks_nil, String.ext_iff]
      | cons r2 rs2 =>
        rw [ih (i + 1) "" _ (by simp) (by simp at hl ⊢; omega) (by simp [h0])]
        simp [String.ext_iff]
    · rw [if_neg h0]
      have hnf : ¬ (i % n.natAbs + 1 = n.natAbs) := by
        intro h
        rw [if_pos h] at hsm
        exact h0 hsm
      rw [if_neg hnf] at hsm
      by_cases hlast : i + 1 = l
      · -- the end of input of line 94: the short last chunk
        have hrs : rs = [] := by
          apply List.length_eq_zero.mp
          simp at hl
          omega
        subst hrs
        rw [if_pos hlast]
        have hshort : (sub.data ++ [r]).length ≤ n.natAbs := by
          simp only [List.length_append, List.length_singleton, hd]
          omega
        rw [chunks_short hm (by simp) hshort]
        simp [SplitString.loop, String.ext_iff]
      · rw [if_neg hlast]
        have hrs : rs ≠ [] := by
          intro h
          subst h
          simp at hl
          omega
        rw [ih (i + 1) _ subs hrs (by simp at hl ⊢; omega)
          (by simp only [String.length_append, String.length_singleton, hsub, hsm])]
        simp

/-- On a non-zero bound `SplitString` returns the consecutive pieces of `|n|`
runes of its input. -/
theorem SplitString_eq_chunks (s : String) (n : Int) (hn : n ≠ 0) :
    SplitString s n = some ((chunks n.natAbs s.data).map String.mk) := by
  unfold SplitString
  cases hs : s.data with
  | nil => simp [SplitString.loop, chunks_nil]
  | cons r rs =>
    have := loop_eq_chunks n hn (r :: rs).length (r :: rs) 0 "" [] (by simp) (by simp) (by simp)
    simpa using this

theorem chunks_eq_nil_iff {m : Nat} (hm : 0 < m) (xs : List Char) :
    chunks m xs = [] ↔ xs = [] := by
  constructor
  · intro h
    by_contra hx
    rw [chunks_of_ne_nil hm hx] at h
    exact List.cons_ne_nil _ _ h
  · rintro rfl
    exact chunks_nil m

theorem chunks_flatten {m : Nat} (hm : 0 < m) (xs : List Char) :
    (chunks m xs).flatten = xs := by
  obtain ⟨k, hk⟩ : ∃ k, xs.length = k := ⟨_, rfl⟩
  induction k using Nat.strong_induction_on generalizing xs with
  | _ k ih =>
    by_cases hx : xs = []
    · subst hx; simp [chunks_nil]
    · have hpos : 0 < xs.length := List.length_pos.mpr hx
      rw [chunks_of_ne_nil hm hx, List.flatten_cons,
        ih (xs.drop m).length (by simp only [List.length_drop]; omega) _ rfl,
        List.take_append_drop]

theorem chunks_length_bounds {m : Nat} (hm : 0 < m) (xs : List Char) :
    ∀ c ∈ chunks m xs, 1 ≤ c.length ∧ c.length ≤ m := by
  obtain ⟨k, hk⟩ : ∃ k, xs.length = k := ⟨_, rfl⟩
  induction k using Nat.strong_induction_on generalizing xs with
  | _ k ih =>
    by_cases hx : xs = []
    · subst hx; simp [chunks_nil]
    · have hpos : 0 < xs.length := List.length_pos.mpr hx
      rw [chunks_of_ne_nil hm hx]
      intro c hc
      rcases List.mem_cons.mp hc with rfl | hc
      · simp only [List.length_take]
        omega
      · exact ih (xs.drop m).length (by simp only [List.length_drop]; omega) _ rfl c hc

theorem chunks_dropLast_length {m : Nat} (hm : 0 < m) (xs : List Char) :
    ∀ c ∈ (chunks m xs).dropLast, c.length = m := by
  obtain ⟨k, hk⟩ : ∃ k, xs.length = k := ⟨_, rfl⟩
  induction k using Nat.strong_induction_on generalizing xs with
  | _ k ih =>
    by_cases hx : xs = []
    · subst hx; simp [chunks_nil]
    · have hpos : 0 < xs.length := List.length_pos.mpr hx
      rw [chunks_of_ne_nil hm hx]
      by_cases hd : xs.drop m = []
      · simp [hd, chunks_nil]
      · have hne : chunks m (xs.drop m) ≠ [] := fun h => hd ((chunks_eq_nil_iff hm _).mp h)
        rw [List.dropLast_cons_of_ne_nil hne]
        intro c hc
        rcases List.mem_cons.mp hc with rfl | hc
        · have : 0 < (xs.drop m).length := List.length_pos.mpr hd
          simp only [List.length_drop] at this
          simp only [List.length_take]
          omega
        · exact ih (xs.drop m).length (by simp only [List.length_drop]; omega) _ rfl c hc

theorem chunks_getLast {m : Nat} (hm : 0 < m) (xs : List Char) (hx : xs ≠ []) :
    ∃ c, (chunks m xs).getLast? = some c ∧ 1 ≤ c.length ∧ c.length ≤ m := by
  have hne : chunks m xs ≠ [] := fun h => hx ((chunks_eq_nil_iff hm _).mp h)
  refine ⟨(chunks m xs).getLast hne, List.getLast?_eq_getLast _ hne, ?_⟩
  exact chunks_length_bounds hm xs _ (List.getLast_mem hne)

theorem chunks_of_length_mul {m : Nat} (hm : 0 < m) :
    ∀ (k : Nat) (xs : List Char), xs.length = k * m →
      (chunks m xs).length = k ∧ ∀ c ∈ chunks m xs, c.length = m := by
  intro k
  induction k with
  | zero =>
    intro xs h
    have : xs = [] := List.length_eq_zero.mp (by simpa using h)
    subst this
    simp [chunks_nil]
  | succ k ih =>
    intro xs h
    have hge : m ≤ xs.length := by
      rw [h, Nat.succ_mul]; omega
    have hx : xs ≠ [] := by
      intro e; subst e; simp at hge; omega
    have hdrop : (xs.drop m).length = k * m := by
      rw [List.length_drop, h, Nat.succ_mul]; omega
    obtain ⟨h1, h2⟩ := ih (xs.drop m) hdrop
    rw [chunks_of_ne_nil hm hx]
    refine ⟨by simp [h1], ?_⟩
    intro c hc
    rcases List.mem_cons.mp hc with rfl | hc
    · simp only [List.length_take]; omega
    · exact h2 c hc

theorem natAbs_cast_of_pos {n : Int} (hn : 0 < n) : ((n.natAbs : Nat) : Int) = n := by
  omega

/-- C1: for every text `T` (so for every non-empty one) and every bound `n > 0`,
`SplitString` returns, and its chunks concatenated in order are exactly `T`. -/
theorem SplitString_concat (T : String) (n : Int) (hn : 0 < n) :
    ∃ cs, SplitString T n = some cs ∧ String.join cs = T := by
  have hm : 0 < n.natAbs := Int.natAbs_pos.mpr (by omega)
  refine ⟨_, SplitString_eq_chunks T n (by omega), ?_⟩
  apply String.ext
  rw [String.data_join, List.map_map]
  have : (String.data ∘ String.mk) = id := by funext x; rfl
  rw [this, List.map_id, chunks_flatten hm]

theorem SplitString_concat_witness :
    ∃ cs, SplitString "héllo wörld" 4 = some cs ∧ String.join cs = "héllo wörld" :=
  SplitString_concat "héllo wörld" 4 (by decide)

/-- C2: for every non-empty text `T` and every bound `n > 0`, every chunk of
`SplitString T n` but the last has exactly `n` characters, the last chunk has
between 1 and `n` characters, and no chunk is empty. -/
theorem SplitString_chunk_sizes (T : String) (n : Int) (hT : T ≠ "") (hn : 0 < n) :
    ∃ cs, SplitString T n = some cs ∧
      (∀ c ∈ cs.dropLast, (c.length : Int) = n) ∧
      (∃ c, cs.getLast? = some c ∧ 1 ≤ c.length ∧ (c.length : Int) ≤ n) ∧
      (∀ c ∈ cs, c ≠ "") := by
  have hm : 0 < n.natAbs := Int.natAbs_pos.mpr (by omega)
  have hcast := natAbs_cast_of_pos hn
  have hx : T.data ≠ [] := fun h => hT (String.ext h)
  refine ⟨_, SplitString_eq_chunks T n (by omega), ?_, ?_, ?_⟩
  · intro c hc
    rw [← List.map_dropLast] at hc
    obtain ⟨d, hd, rfl⟩ := List.mem_map.mp hc
    have := chunks_dropLast_length hm T.data d hd
    show ((d.length : Nat) : Int) = n
    rw [this, hcast]
  · obtain ⟨d, hd, h1, h2⟩ := chunks_getLast hm T.data hx
    refine ⟨String.mk d, ?_, h1, ?_⟩
    · rw [List.getLast?_map, hd]; rfl
    · show ((d.length : Nat) : Int) ≤ n
      omega
  · intro c hc
    obtain ⟨d, hd, rfl⟩ := List.mem_map.mp hc
    have := (chunks_length_bounds hm T.data d hd).1
    intro h
    have h2 : d = [] := congrArg String.data h
    rw [h2] at this
    simp at this

theorem SplitString_chunk_sizes_witness :
    ∃ cs, SplitString "héllo wörld" 4 = some cs ∧
      (∀ c ∈ cs.dropLast, (c.length : Int) = 4) ∧
      (∃ c, cs.getLast? = some c ∧ 1 ≤ c.length ∧ (c.length : Int) ≤ 4) ∧
      (∀ c ∈ cs, c ≠ "") :=
  SplitString_chunk_sizes "héllo wörld" 4 (by decide) (by decide)

/-- C3: for every bound `n > 0` and every text `T` whose character count is an
exact multiple of `n`, `SplitString T n` returns exactly `len(T)/n` chunks, none
of them empty; and `SplitString "" n` is the empty sequence. -/
theorem SplitString_exact_multiple (T : String) (n : Int) (hn : 0 < n)
    (hdvd : n ∣ (T.length : Int)) :
    (∃ cs, SplitString T n = some cs ∧ (cs.length : Int) = (T.length : Int) / n ∧
      ∀ c ∈ cs, c ≠ "") ∧
    SplitString "" n = some [] := by
  have hm : 0 < n.natAbs := Int.natAbs_pos.mpr (by omega)
  have hcast := natAbs_cast_of_pos hn
  have hd2 : n.natAbs ∣ T.data.length := by
    have := Int.natAbs_dvd_natAbs.mpr hdvd
    simpa using this
  obtain ⟨k, hk⟩ := hd2
  rw [Nat.mul_comm] at hk
  obtain ⟨h1, h2⟩ := chunks_of_length_mul hm k T.data hk
  refine ⟨⟨_, SplitString_eq_chunks T n (by omega), ?_, ?_⟩, ?_⟩
  · rw [List.length_map, h1]
    have hlen : (T.length : Int) = (k : Int) * n := by
      show ((T.data.length : Nat) : Int) = _
      rw [hk, Nat.cast_mul, hcast]
    rw [hlen, Int.mul_ediv_cancel _ (by omega)]
  · intro c hc
    obtain ⟨d, hd, rfl⟩ := List.mem_map.mp hc
    have := h2 d hd
    intro h
    have h3 : d = [] := congrArg String.data h
    rw [h3] at this
    simp at this
    omega
  · rfl

theorem SplitString_exact_multiple_witness :
    (∃ cs, SplitString "abcdef" 3 = some cs ∧ (cs.length : Int) = (("abcdef".length : Nat) : Int) / 3 ∧
      ∀ c ∈ cs, c ≠ "") ∧
    SplitString "" 3 = some [] :=
  SplitString_exact_multiple "abcdef" 3 (by decide) (by decide)

/-! ## Delivery loop -/

theorem chunkMessage_ne_errorNotice (chatid : Int) (subString : String) :
    chunkMessage chatid subString ≠ errorNotice chatid := by
  intro h
  have := congrArg MessageConfig.DisableWebPagePreview h
  simp [chunkMessage, errorNotice, NewMessage] at this

theorem sendLoop_cons {σ M : Type} (api : BotAPI σ M) (chatid : Int) (msgtext : String)
    (subString : String) (rest : List String) (bot : σ) :
    ∃ (o : ChunkOutcome M) (bot1 : σ),
      (POST_Handling.sendLoop api chatid msgtext (subString :: rest) bot).1
        = specChunkEvents chatid msgtext subString o
          ++ (POST_Handling.sendLoop api chatid msgtext rest bot1).1 := by
  rcases h : api.Send bot (chunkMessage chatid subString) with ⟨⟨sendmsg, err⟩, bot1⟩
  cases err with
  | none =>
    exact ⟨.delivered sendmsg, bot1, by simp [POST_Handling.sendLoop, h, specChunkEvents]⟩
  | some e =>
    rcases h2 : api.Send bot1 (errorNotice chatid) with ⟨⟨m2, e2⟩, bot2⟩
    exact ⟨.failed sendmsg e m2 e2, bot2, by simp [POST_Handling.sendLoop, h, h2, specChunkEvents]⟩

theorem sendLoop_blocks {σ M : Type} (api : BotAPI σ M) (chatid : Int) (msgtext : String) :
    ∀ (subs : List String) (bot : σ), ∃ outs : List (ChunkOutcome M),
      outs.length = subs.length ∧
      (POST_Handling.sendLoop api chatid msgtext subs bot).1
        = (List.zipWith (specChunkEvents chatid msgtext) subs outs).flatten := by
  intro subs
  induction subs with
  | nil => intro bot; exact ⟨[], rfl, rfl⟩
  | cons c rest ih =>
    intro bot
    obtain ⟨o, bot1, h⟩ := sendLoop_cons api chatid msgtext c rest bot
    obtain ⟨outs, hl, ht⟩ := ih bot1
    exact ⟨o :: outs, by simp [hl], by rw [h, ht]; simp⟩

theorem sends_append {M : Type} (a b : List (Event M)) : sends (a ++ b) = sends a ++ sends b := by
  simp [sends]

theorem responses_append {M : Type} (a b : List (Event M)) :
    responses (a ++ b) = responses a ++ responses b := by
  simp [responses]

theorem blocks_chunk_sends {M : Type} (chatid : Int) (msgtext : String) :
    ∀ (subs : List String) (outs : List (ChunkOutcome M)), outs.length = subs.length →
      (sends (List.zipWith (specChunkEvents chatid msgtext) subs outs).flatten).filter
          (fun m => m ≠ errorNotice chatid)
        = subs.map (chunkMessage chatid) := by
  intro subs
  induction subs with
  | nil => intro outs _; simp [sends]
  | cons c rest ih =>
    intro outs hl
    cases outs with
    | nil => simp at hl
    | cons o outs =>
      have hl2 : outs.length = rest.length := by simpa using hl
      have hne := chunkMessage_ne_errorNotice chatid c
      rw [List.zipWith_cons_cons, List.flatten_cons, sends_append, List.filter_append, ih outs hl2]
      cases o <;> simp [specChunkEvents, sends, hne]

theorem blocks_responses_length {M : Type} (chatid : Int) (msgtext : String) :
    ∀ (subs : List String) (outs : List (ChunkOutcome M)), outs.length = subs.length →
      (responses (List.zipWith (specChunkEvents chatid msgtext) subs outs).flatten).length
        = subs.length := by
  intro subs
  induction subs with
  | nil => intro outs _; simp [responses]
  | cons c rest ih =>
    intro outs hl
    cases outs with
    | nil => simp at hl
    | cons o outs =>
      have hl2 : outs.length = rest.length := by simpa using hl
      rw [List.zipWith_cons_cons, List.flatten_cons, responses_append, List.length_append,
        ih outs hl2]
      cases o <;> simp [specChunkEvents, responses] <;> omega

theorem blocks_notice_count {M : Type} (chatid : Int) (msgtext : String) :
    ∀ (subs : List String) (outs : List (ChunkOutcome M)), outs.length = subs.length →
      ((sends (List.zipWith (specChunkEvents chatid msgtext) subs outs).flatten).filter
          (fun m => m = errorNotice chatid)).length
        = (outs.filter ChunkOutcome.isFailed).length := by
  intro subs
  induction subs with
  | nil => intro outs hl; cases outs <;> simp_all [sends]
  | cons c rest ih =>
    intro outs hl
    cases outs with
    | nil => simp at hl
    | cons o outs =>
      have hl2 : outs.length = rest.length := by simpa using hl
      have hne := chunkMessage_ne_errorNotice chatid c
      rw [List.zipWith_cons_cons, List.flatten_cons, sends_append, List.filter_append,
        List.length_append, ih outs hl2]
      cases o with
      | delivered _ => simp [specChunkEvents, sends, hne, ChunkOutcome.isFailed]
      | failed _ _ _ _ => simp [specChunkEvents, sends, hne, ChunkOutcome.isFailed]; omega

theorem POST_Handling_reaches_loop {H P σ M : Type} (debug : Bool) (cfg : Config)
    (env : Env H P) (api : BotAPI σ M) (tmpH : TemplateMap H) (bot : σ) (chatid : Int)
    (template : String) (s : P) (tmpH2 : TemplateMap H) (msgtext : String)
    (subs : List String)
    (hmar : debug = true → ∃ ln, env.Marshal s = .ok ln)
    (hren : AlertFormatTemplate debug cfg env tmpH s template = (tmpH2, .text msgtext))
    (hsplit : SplitString msgtext cfg.SplitMessageBytes = some subs) :
    (POST_Handling debug cfg env api tmpH bot (.ok chatid) template s).trace
        = (POST_Handling.sendLoop api chatid msgtext subs bot).1 ∧
      (POST_Handling debug cfg env api tmpH bot (.ok chatid) template s).exit = .returned := by
  have hguard : (debug && !(env.Marshal s).toBool) = false := by
    cases debug with
    | false => rfl
    | true =>
      obtain ⟨ln, h⟩ := hmar rfl
      simp [h, Except.toBool]
  simp [POST_Handling, hguard, hren, hsplit]

theorem chunks_9000 (xs : List Char) (hx : xs.length = 9000) :
    chunks 4000 xs = [xs.take 4000, (xs.drop 4000).take 4000, xs.drop 8000] := by
  have h1 : xs ≠ [] := by intro h; subst h; simp at hx
  have h2 : xs.drop 4000 ≠ [] := by
    intro h; have := congrArg List.length h; simp [hx] at this
  have h3 : (xs.drop 4000).drop 4000 ≠ [] := by
    intro h; have := congrArg List.length h; simp [hx] at this
  have h4 : ((xs.drop 4000).drop 4000).drop 4000 = [] := by
    apply List.length_eq_zero.mp; simp [hx]
  have h5 : ((xs.drop 4000).drop 4000).take 4000 = (xs.drop 4000).drop 4000 := by
    apply List.take_of_length_le; simp [hx]
  rw [chunks_of_ne_nil (by decide) h1, chunks_of_ne_nil (by decide) h2,
    chunks_of_ne_nil (by decide) h3, h4, chunks_nil, h5, List.drop_drop]

/-! ## Delivery contract -/

/-- C4: for every chat id, every rendered text and every chat client (every
pattern of send outcomes), once `POST_Handling` has rendered `msgtext` and the
bound is not zero, the messages it sends, the fallback notices left out, are
exactly one per chunk of `SplitString msgtext bound`, in chunk order, each to
the given chat with parse mode HTML and the link preview disabled: no chunk is
sent twice and no failure stops the later chunks. -/
theorem POST_Handling_sends_each_chunk {H P σ M : Type} (debug : Bool) (cfg : Config)
    (env : Env H P) (api : BotAPI σ M) (tmpH : TemplateMap H) (bot : σ) (chatid : Int)
    (template : String) (s : P) (tmpH2 : TemplateMap H) (msgtext : String)
    (hmar : debug = true → ∃ ln, env.Marshal s = .ok ln)
    (hren : AlertFormatTemplate debug cfg env tmpH s template = (tmpH2, .text msgtext))
    (hn : cfg.SplitMessageBytes ≠ 0) :
    ∃ subs, SplitString msgtext cfg.SplitMessageBytes = some subs ∧
      (sends (POST_Handling debug cfg env api tmpH bot (.ok chatid) template s).trace).filter
          (fun m => m ≠ NewMessage chatid "Error sending message, checkout logs")
        = subs.map (fun c => MessageConfig.mk chatid c "HTML" true) := by
  have hsplit := SplitString_eq_chunks msgtext cfg.SplitMessageBytes hn
  have hloop := (POST_Handling_reaches_loop debug cfg env api tmpH bot chatid template s
    tmpH2 msgtext _ hmar hren hsplit).1
  obtain ⟨outs, hl, hb⟩ := sendLoop_blocks api chatid msgtext
    ((chunks cfg.SplitMessageBytes.natAbs msgtext.data).map String.mk) bot
  have hsends := blocks_chunk_sends (M := M) chatid msgtext _ outs hl
  rw [← hb, ← hloop] at hsends
  exact ⟨_, hsplit, hsends⟩

/-- The scenario of C4: the default template renders a text of 9000 characters,
the bound is 4000, the chat is 42 and the second send fails; the chunk sends are
three, of 4000, 4000 and 1000 characters, in order, to chat 42. -/
theorem POST_Handling_sends_each_chunk_witness :
    (longText.length = 9000 ∧ (exampleConfig 4000).SplitMessageBytes = 4000) ∧
      ∃ a b c, a.length = 4000 ∧ b.length = 4000 ∧ c.length = 1000 ∧
        (sends (POST_Handling false (exampleConfig 4000) (exampleEnv longText) (exampleApi [1])
            exampleStore 0 (.ok 42) "" ()).trace).filter
            (fun m => m ≠ NewMessage 42 "Error sending message, checkout logs")
          = [MessageConfig.mk 42 a "HTML" true, MessageConfig.mk 42 b "HTML" true,
             MessageConfig.mk 42 c "HTML" true] := by
  have hlen : longText.data.length = 9000 := List.length_replicate 9000 'a'
  refine ⟨⟨hlen, rfl⟩, ?_⟩
  obtain ⟨subs, hs, hf⟩ := POST_Handling_sends_each_chunk false (exampleConfig 4000)
    (exampleEnv longText) (exampleApi [1]) exampleStore 0 42 "" () exampleStore longText
    (fun h => absurd h (by decide)) rfl (by decide)
  have hs2 := SplitString_eq_chunks longText (exampleConfig 4000).SplitMessageBytes (by decide)
  have h4000 : (exampleConfig 4000).SplitMessageBytes.natAbs = 4000 := rfl
  rw [hs2, h4000, chunks_9000 _ hlen] at hs
  have hsubs := (Option.some.inj hs).symm
  subst hsubs
  refine ⟨String.mk (longText.data.take 4000),
    String.mk ((longText.data.drop 4000).take 4000),
    String.mk (longText.data.drop 8000), ?_, ?_, ?_, hf⟩
  · show (longText.data.take 4000).length = 4000
    simp [hlen]
  · show ((longText.data.drop 4000).take 4000).length = 4000
    simp [hlen]
  · show (longText.data.drop 8000).length = 1000
    simp [hlen]

/-- C5: for every rendered text and every chat client (every pattern of send
outcomes), once `POST_Handling` has rendered `msgtext` and the bound is not
zero, its trace is, chunk by chunk in chunk order, the send of the chunk
followed by the 200 response "telegram msg sent." when the send succeeded, and
by the 503 response with the send error and the whole `msgtext` and then
exactly one send of the notice to the same chat, whatever that send returns,
when it failed. So there is one response per chunk, and as many notice sends as
failed chunks. -/
theorem POST_Handling_reports_each_chunk {H P σ M : Type} (debug : Bool) (cfg : Config)
    (env : Env H P) (api : BotAPI σ M) (tmpH : TemplateMap H) (bot : σ) (chatid : Int)
    (template : String) (s : P) (tmpH2 : TemplateMap H) (msgtext : String)
    (hmar : debug = true → ∃ ln, env.Marshal s = .ok ln)
    (hren : AlertFormatTemplate debug cfg env tmpH s template = (tmpH2, .text msgtext))
    (hn : cfg.SplitMessageBytes ≠ 0) :
    ∃ (subs : List String) (outs : List (ChunkOutcome M)),
      SplitString msgtext cfg.SplitMessageBytes = some subs ∧
      outs.length = subs.length ∧
      (POST_Handling debug cfg env api tmpH bot (.ok chatid) template s).trace
        = (List.zipWith (specChunkEvents chatid msgtext) subs outs).flatten ∧
      (responses (POST_Handling debug cfg env api tmpH bot (.ok chatid) template s).trace).length
        = subs.length ∧
      ((sends (POST_Handling debug cfg env api tmpH bot (.ok chatid) template s).trace).filter
          (fun m => m = NewMessage chatid "Error sending message, checkout logs")).length
        = (outs.filter ChunkOutcome.isFailed).length := by
  have hsplit := SplitString_eq_chunks msgtext cfg.SplitMessageBytes hn
  have hloop := (POST_Handling_reaches_loop debug cfg env api tmpH bot chatid template s
    tmpH2 msgtext _ hmar hren hsplit).1
  obtain ⟨outs, hl, hb⟩ := sendLoop_blocks api chatid msgtext
    ((chunks cfg.SplitMessageBytes.natAbs msgtext.data).map String.mk) bot
  have hr := blocks_responses_length (M := M) chatid msgtext _ outs hl
  have hc := blocks_notice_count (M := M) chatid msgtext _ outs hl
  rw [← hb, ← hloop] at hr hc
  exact ⟨_, outs, hsplit, hl, hloop.trans hb, hr, hc⟩

theorem POST_Handling_reports_each_chunk_witness :
    (POST_Handling false (exampleConfig 3) (exampleEnv "abcdefg") (exampleApi [1])
        exampleStore 0 (.ok 42) "" ()).trace
      = [Event.send (chunkMessage 42 "abc") 0 none,
         Event.cString 200 "telegram msg sent.",
         Event.send (chunkMessage 42 "def") 1 (some "Bad Request"),
         Event.cJSON 503 "Bad Request" (some 1) (some "abcdefg"),
         Event.send (errorNotice 42) 2 none,
         Event.send (chunkMessage 42 "g") 3 none,
         Event.cString 200 "telegram msg sent."] ∧
    ∃ (subs : List String) (outs : List (ChunkOutcome Nat)),
      SplitString "abcdefg" (exampleConfig 3).SplitMessageBytes = some subs ∧
      outs.length = subs.length ∧
      (POST_Handling false (exampleConfig 3) (exampleEnv "abcdefg") (exampleApi [1])
          exampleStore 0 (.ok 42) "" ()).trace
        = (List.zipWith (specChunkEvents 42 "abcdefg") subs outs).flatten ∧
      (responses (POST_Handling false (exampleConfig 3) (exampleEnv "abcdefg") (exampleApi [1])
          exampleStore 0 (.ok 42) "" ()).trace).length = subs.length ∧
      ((sends (POST_Handling false (exampleConfig 3) (exampleEnv "abcdefg") (exampleApi [1])
          exampleStore 0 (.ok 42) "" ()).trace).filter
          (fun m => m = NewMessage 42 "Error sending message, checkout logs")).length
        = (outs.filter ChunkOutcome.isFailed).length :=
  ⟨by decide,
    POST_Handling_reports_each_chunk false (exampleConfig 3) (exampleEnv "abcdefg")
      (exampleApi [1]) exampleStore 0 42 "" () exampleStore "abcdefg"
      (fun h => absurd h (by decide)) rfl (by decide)⟩

/-- C9: when the template renders to the empty text, for every chat id that
parsed and every bound (so every positive one), `POST_Handling` returns with an
empty trace: no chunk send, no notice send and no response. -/
theorem POST_Handling_empty_text {H P σ M : Type} (debug : Bool) (cfg : Config)
    (env : Env H P) (api : BotAPI σ M) (tmpH : TemplateMap H) (bot : σ) (chatid : Int)
    (template : String) (s : P) (tmpH2 : TemplateMap H)
    (hren : AlertFormatTemplate debug cfg env tmpH s template = (tmpH2, .text "")) :
    (POST_Handling debug cfg env api tmpH bot (.ok chatid) template s).trace = [] ∧
      (POST_Handling debug cfg env api tmpH bot (.ok chatid) template s).exit = .returned := by
  have hsplit : SplitString "" cfg.SplitMessageBytes = some [] := rfl
  by_cases hg : (debug && !(env.Marshal s).toBool) = true
  · simp [POST_Handling, hg]
  · simp [POST_Handling, hg, hren, hsplit, POST_Handling.sendLoop]

theorem POST_Handling_empty_text_witness :
    AlertFormatTemplate false (exampleConfig 4000) (exampleEnv "") exampleStore () ""
        = (exampleStore, .text "") ∧
      (POST_Handling false (exampleConfig 4000) (exampleEnv "") (exampleApi [0]) exampleStore 0
        (.ok 42) "" ()).trace = [] ∧
      (POST_Handling false (exampleConfig 4000) (exampleEnv "") (exampleApi [0]) exampleStore 0
        (.ok 42) "" ()).exit = .returned :=
  ⟨rfl,
    POST_Handling_empty_text false (exampleConfig 4000) (exampleEnv "") (exampleApi [0])
      exampleStore 0 42 "" () exampleStore rfl⟩

/-! ## Template store -/

theorem resolve_debug_off_keeps {H : Type} (cfg : Config)
    (loadTemplate : String → Except String H) (tmpH : TemplateMap H) (template k : String)
    (v : Option H) (hk : tmpH k = some v) :
    (AlertFormatTemplate.resolve false cfg loadTemplate tmpH template).tmpH k = some v := by
  unfold AlertFormatTemplate.resolve
  by_cases hok : (tmpH (if template = "" then "default" else template)).isSome = true
  · simp [hok, hk]
  · have hne : k ≠ (if template = "" then "default" else template) := by
      intro h
      rw [← h, hk] at hok
      simp at hok
    simp only [hok, Bool.not_false, Bool.or_false]
    cases loadTemplate (if (if template = "" then "default" else template) = "default"
        then cfg.TemplatePath else (if template = "" then "default" else template)) with
    | ok h => simp [TemplateMap.set, hne, hk]
    | error e => simp [TemplateMap.set, hne, hk]

theorem resolveAll_debug_off_keeps {H : Type} (cfg : Config) (k : String) (v : Option H) :
    ∀ (qs : List (Request H)) (tmpH : TemplateMap H), tmpH k = some v →
      resolveAll false cfg qs tmpH k = some v := by
  intro qs
  induction qs with
  | nil => intro tmpH hk; exact hk
  | cons q qs ih =>
    intro tmpH hk
    exact ih _ (resolve_debug_off_keeps cfg q.loadTemplate tmpH q.template k v hk)

/-- With the reload flag off the entry of "default" that start-up stored is the
same handle after every sequence of resolutions. -/
theorem default_kept_debug_off {H : Type} (cfg : Config) (h : H) (qs : List (Request H))
    (tmpH : TemplateMap H) (hdef : tmpH "default" = some (some h)) :
    resolveAll false cfg qs tmpH "default" = some (some h) :=
  resolveAll_debug_off_keeps cfg "default" (some h) qs tmpH hdef

theorem resolve_known_debug_off {H : Type} (cfg : Config)
    (loadTemplate : String → Except String H) (tmpH : TemplateMap H) (X : String)
    (v : Option H) (hX : X ≠ "") (hk : tmpH X = some v) :
    AlertFormatTemplate.resolve false cfg loadTemplate tmpH X = ⟨tmpH, X, []⟩ := by
  simp [AlertFormatTemplate.resolve, hX, hk]

/-- C6: for every store that holds a valid handle `h` under "default", every
template name that the store does not hold yet and whose file fails to load,
and either setting of the reload flag, `AlertFormatTemplate` executes `h`: the
handle selected in line 214 is `h`, the outcome is that of executing `h` on the
payload (the load error is not part of it), and "default" still holds `h`. -/
theorem AlertFormatTemplate_unknown_falls_back {H P : Type} (debug : Bool) (cfg : Config)
    (env : Env H P) (tmpH : TemplateMap H) (alerts : P) (template : String) (h : H)
    (hdef : tmpH "default" = some (some h))
    (hnew : tmpH (if template = "" then "default" else template) = none)
    (hload : ∃ e, env.loadTemplate template = .error e) :
    (AlertFormatTemplate.resolve debug cfg env.loadTemplate tmpH template).selected = some h ∧
      (AlertFormatTemplate debug cfg env tmpH alerts template).2
        = (match env.ExecuteWriterUnbuffered h alerts with
          | .ok out => Rendered.text out
          | .error e => Rendered.fatal e) ∧
      (AlertFormatTemplate debug cfg env tmpH alerts template).1 "default" = some (some h) := by
  obtain ⟨e, he⟩ := hload
  have h1 : template ≠ "" := by
    intro h0
    rw [if_pos h0, hdef] at hnew
    exact Option.noConfusion hnew
  rw [if_neg h1] at hnew
  have h2 : template ≠ "default" := by
    intro h0
    rw [h0, hdef] at hnew
    exact Option.noConfusion hnew
  have h3 : "default" ≠ template := fun h0 => h2 h0.symm
  have hres : AlertFormatTemplate.resolve debug cfg env.loadTemplate tmpH template
      = ⟨(tmpH.set template none).set template ((tmpH.set template none).get "default"),
          template, [template]⟩ := by
    simp [AlertFormatTemplate.resolve, h1, h2, hnew, he]
  have hget : (tmpH.set template none).get "default" = some h := by
    simp [TemplateMap.get, TemplateMap.set, h3, hdef]
  have hsel : (AlertFormatTemplate.resolve debug cfg env.loadTemplate tmpH template).selected
      = some h := by
    rw [hres]
    simp [Resolution.selected, TemplateMap.get, TemplateMap.set, h3, hdef]
  refine ⟨hsel, ?_, ?_⟩
  · simp only [AlertFormatTemplate, hsel]
    cases env.ExecuteWriterUnbuffered h alerts <;> rfl
  · simp only [AlertFormatTemplate, hsel]
    cases env.ExecuteWriterUnbuffered h alerts <;>
      simp [hres, TemplateMap.set, h3, hdef]

theorem AlertFormatTemplate_unknown_falls_back_witness :
    (AlertFormatTemplate.resolve true (exampleConfig 4000) (exampleEnv "alert").loadTemplate
        exampleStore "missing.tmpl").selected = some 1 ∧
      (AlertFormatTemplate true (exampleConfig 4000) (exampleEnv "alert") exampleStore ()
        "missing.tmpl").2
        = (match (exampleEnv "alert").ExecuteWriterUnbuffered 1 () with
          | .ok out => Rendered.text out
          | .error e => Rendered.fatal e) ∧
      (AlertFormatTemplate true (exampleConfig 4000) (exampleEnv "alert") exampleStore ()
        "missing.tmpl").1 "default" = some (some 1) :=
  AlertFormatTemplate_unknown_falls_back true (exampleConfig 4000) (exampleEnv "alert")
    exampleStore () "missing.tmpl" 1 (by decide) (by decide) ⟨_, rfl⟩

/-- C10: with the reload flag off, when the load of a name `X` other than
"default" fails, the map binds `X` to what "default" held at that moment; after
any further resolutions `qs`, a resolution of `X` selects that same handle,
calls the loader `later` not at all, whatever it would return, and leaves the
map as it was. -/
theorem failed_name_stays_bound {H : Type} (cfg : Config)
    (loadTemplate : String → Except String H) (tmpH : TemplateMap H) (X : String)
    (qs : List (Request H)) (later : String → Except String H)
    (hX : X ≠ "") (hXd : X ≠ "default") (hnew : tmpH X = none)
    (hload : ∃ e, loadTemplate X = .error e) :
    (AlertFormatTemplate.resolve false cfg loadTemplate tmpH X).tmpH X
        = some (tmpH.get "default") ∧
      (AlertFormatTemplate.resolve false cfg later
          (resolveAll false cfg qs (AlertFormatTemplate.resolve false cfg loadTemplate tmpH X).tmpH)
          X).selected = tmpH.get "default" ∧
      (AlertFormatTemplate.resolve false cfg later
          (resolveAll false cfg qs (AlertFormatTemplate.resolve false cfg loadTemplate tmpH X).tmpH)
          X).loaded = [] ∧
      (AlertFormatTemplate.resolve false cfg later
          (resolveAll false cfg qs (AlertFormatTemplate.resolve false cfg loadTemplate tmpH X).tmpH)
          X).tmpH
        = resolveAll false cfg qs (AlertFormatTemplate.resolve false cfg loadTemplate tmpH X).tmpH := by
  obtain ⟨e, he⟩ := hload
  have h3 : "default" ≠ X := fun h0 => hXd h0.symm
  have hres : AlertFormatTemplate.resolve false cfg loadTemplate tmpH X
      = ⟨(tmpH.set X none).set X ((tmpH.set X none).get "default"), X, [X]⟩ := by
    simp [AlertFormatTemplate.resolve, hX, hXd, hnew, he]
  have hget : (tmpH.set X none).get "default" = tmpH.get "default" := by
    simp [TemplateMap.get, TemplateMap.set, h3]
  have hbound : (AlertFormatTemplate.resolve false cfg loadTemplate tmpH X).tmpH X
      = some (tmpH.get "default") := by
    rw [hres, hget]
    simp [TemplateMap.set]
  refine ⟨hbound, ?_⟩
  have hkeep := resolveAll_debug_off_keeps cfg X (tmpH.get "default") qs _ hbound
  rw [resolve_known_debug_off cfg later _ X _ hX hkeep]
  refine ⟨?_, rfl, rfl⟩
  simp [Resolution.selected, TemplateMap.get, hkeep]

/-- The file `missing.tmpl` does not load; two requests later (one of them for
another name) it exists, and the name is still bound to the default handle. -/
theorem failed_name_stays_bound_witness :
    (AlertFormatTemplate.resolve false (exampleConfig 4000) brokenLoad exampleStore
        "missing.tmpl").tmpH "missing.tmpl" = some (some 1) ∧
      (AlertFormatTemplate.resolve false (exampleConfig 4000) (fun _ => .ok 2)
          (resolveAll false (exampleConfig 4000)
            [⟨"other.tmpl", fun _ => .ok 3⟩, ⟨"", brokenLoad⟩]
            (AlertFormatTemplate.resolve false (exampleConfig 4000) brokenLoad exampleStore
              "missing.tmpl").tmpH)
          "missing.tmpl").selected = some 1 ∧
      (AlertFormatTemplate.resolve false (exampleConfig 4000) (fun _ => .ok 2)
          (resolveAll false (exampleConfig 4000)
            [⟨"other.tmpl", fun _ => .ok 3⟩, ⟨"", brokenLoad⟩]
            (AlertFormatTemplate.resolve false (exampleConfig 4000) brokenLoad exampleStore
              "missing.tmpl").tmpH)
          "missing.tmpl").loaded = [] :=
  have h := failed_name_stays_bound (exampleConfig 4000) brokenLoad exampleStore "missing.tmpl"
    [⟨"other.tmpl", fun _ => .ok 3⟩, ⟨"", brokenLoad⟩] (fun _ => .ok 2)
    (by decide) (by decide) (by decide) ⟨_, rfl⟩
  ⟨h.1, h.2.1, h.2.2.1⟩

/-- C7: start-up succeeds and stores handle 1 under "default"; with the reload
flag on, one resolution of "default" while its file does not load leaves the
nil template under "default", and the request dereferences it. -/
theorem default_reload_failure_stores_nil :
    ∃ (cfg : Config) (tmpH : TemplateMap Nat),
      main "" (exampleConfig 0) (.ok ()) exampleLoad = .ok (cfg, tmpH) ∧
      tmpH "default" = some (some 1) ∧
      (AlertFormatTemplate.resolve true cfg brokenLoad tmpH "default").tmpH "default"
        = some none ∧
      (AlertFormatTemplate true cfg
        { loadTemplate := brokenLoad
          ExecuteWriterUnbuffered := fun _ _ => .ok "alert"
          Marshal := fun _ => .ok "null" } tmpH () "default").2 = Rendered.nilTemplate :=
  ⟨_, _, rfl, by decide, by decide, by decide⟩

theorem main_cfg {H : Type} (template_path : String) (cfg : Config)
    (newBotAPI : Except String Unit) (loadTemplate : String → Except String H)
    (cfg2 : Config) (tmpH : TemplateMap H)
    (hmain : main template_path cfg newBotAPI loadTemplate = .ok (cfg2, tmpH)) :
    cfg2 = main.defaults template_path cfg := by
  unfold main at hmain
  generalize main.defaults template_path cfg = c at hmain
  cases newBotAPI with
  | error e => exact Except.noConfusion hmain
  | ok u =>
    simp only at hmain
    split at hmain
    · cases hl : loadTemplate c.TemplatePath with
      | error e => rw [hl] at hmain; exact Except.noConfusion hmain
      | ok h =>
        rw [hl] at hmain
        simp only at hmain
        split at hmain
        · exact Except.noConfusion hmain
        · exact (congrArg Prod.fst (Except.ok.inj hmain)).symm
    · exact Except.noConfusion hmain

theorem main_split_bound {H : Type} (template_path : String) (cfg : Config)
    (newBotAPI : Except String Unit) (loadTemplate : String → Except String H)
    (cfg2 : Config) (tmpH : TemplateMap H)
    (hmain : main template_path cfg newBotAPI loadTemplate = .ok (cfg2, tmpH)) :
    cfg2.SplitMessageBytes
      = if cfg.SplitMessageBytes = 0 then 4000 else cfg.SplitMessageBytes := by
  rw [main_cfg template_path cfg newBotAPI loadTemplate cfg2 tmpH hmain]
  unfold main.defaults
  by_cases h1 : template_path ≠ "" <;>
    by_cases h0 : cfg.SplitMessageBytes = 0 <;> simp [h1, h0]

/-- C8, refuted as stated: a configuration file with `split_msg_byte: -5`
starts up, and the bound the handlers then read is `-5`, not positive. -/
theorem split_bound_negative_passes :
    ∃ (cfg : Config) (tmpH : TemplateMap Nat),
      main "" (exampleConfig (-5)) (.ok ()) exampleLoad = .ok (cfg, tmpH) ∧
      cfg.SplitMessageBytes = -5 ∧ ¬ 0 < cfg.SplitMessageBytes :=
  ⟨_, _, rfl, by decide, by decide⟩

/-- C8, amended: for every configured split size that is not negative (zero,
the value of an unset key, included), after a successful start-up the bound
that `POST_Handling` reads from `cfg` is strictly positive: 4000 when the
configured value is zero, the configured value itself otherwise. -/
theorem split_bound_positive {H : Type} (template_path : String) (cfg : Config)
    (newBotAPI : Except String Unit) (loadTemplate : String → Except String H)
    (cfg2 : Config) (tmpH : TemplateMap H)
    (hmain : main template_path cfg newBotAPI loadTemplate = .ok (cfg2, tmpH))
    (hnonneg : 0 ≤ cfg.SplitMessageBytes) :
    0 < cfg2.SplitMessageBytes ∧
      cfg2.SplitMessageBytes
        = if cfg.SplitMessageBytes = 0 then 4000 else cfg.SplitMessageBytes := by
  have h := main_split_bound template_path cfg newBotAPI loadTemplate cfg2 tmpH hmain
  refine ⟨?_, h⟩
  rw [h]
  split <;> omega

theorem split_bound_positive_witness :
    0 < (exampleConfig 4000).SplitMessageBytes ∧
      (exampleConfig 4000).SplitMessageBytes
        = if (exampleConfig 0).SplitMessageBytes = 0 then 4000
          else (exampleConfig 0).SplitMessageBytes :=
  split_bound_positive "" (exampleConfig 0) (.ok ()) exampleLoad (exampleConfig 4000)
    exampleStore rfl (by decide)

end TgrBot
